import Mathlib

/-!
Verification of the healthcheck CLI (`src/healthcli/main.py`) against its
natural-language specification.  The Python source is shallowly embedded:
timestamps and durations are modelled as `Int` (Python numbers), optional
record fields as `Option`, Python truthiness as explicit predicates, and
`sys.exit` error paths as `Option`/`none` results.  Subprocess execution and
the systemd query are abstracted as explicit inputs, following the spec's
external-collaborator contracts.
-/

/-- Decimal digit character for a digit value, `chr(48 + d)`. -/
def digitChar (d : Nat) : Char := Char.ofNat (48 + d)

/-- Numeric value of a decimal digit character. -/
def charVal (c : Char) : Nat := c.toNat - 48

/-- Fuel-driven decimal rendering of a natural number (most significant digit
first).  `fuel` bounds the number of digits; `natRepr` supplies enough. -/
def natReprAux : Nat → Nat → List Char
  | 0, _ => []
  | fuel + 1, n =>
    if n < 10 then [digitChar n]
    else natReprAux fuel (n / 10) ++ [digitChar (n % 10)]

/-- Decimal string of a natural number, as Python `str` renders one. -/
def natRepr (n : Nat) : String := String.mk (natReprAux (n + 1) n)

/-- Decimal string of an integer, as Python `str`/f-strings render one. -/
def intRepr (i : Int) : String :=
  if i < 0 then "-" ++ natRepr i.natAbs else natRepr i.toNat

/-- Value of a big-endian list of decimal digit characters, as Python `int`
computes it for a digit group. -/
def digitsVal (ds : List Char) : Nat :=
  ds.foldl (fun a c => a * 10 + charVal c) 0

/-- Membership in the regex character class `[smhdw]` of `parse_duration`. -/
def isUnit (c : Char) : Bool :=
  c = 's' || c = 'm' || c = 'h' || c = 'd' || c = 'w'

/-- Fuel-driven scanner for `re.finditer(r"(\d+)\s*([smhdw])", s)`: at a digit
it reads the maximal digit run, optional whitespace and a unit letter; on a
failed attempt the scan restarts one character later, exactly as `finditer`
advances.  The fuel is bounded by the input length. -/
def scanAux : Nat → List Char → List (Nat × Char)
  | 0, _ => []
  | _ + 1, [] => []
  | fuel + 1, c :: rest =>
    if c.isDigit then
      match (List.dropWhile Char.isDigit (c :: rest)).dropWhile Char.isWhitespace with
      | u :: rest3 =>
        if isUnit u then
          (digitsVal (List.takeWhile Char.isDigit (c :: rest)), u) :: scanAux fuel rest3
        else scanAux fuel rest
      | [] => []
    else scanAux fuel rest

/-- All `(value, unit)` tokens of `re.finditer(r"(\d+)\s*([smhdw])", s)`. -/
def scanTokens (l : List Char) : List (Nat × Char) := scanAux l.length l

/-- Seconds contributed by one token: the `if unit == "s": ... elif ...`
chain of `parse_duration` (no branch matches any other character). -/
def tokenVal (vu : Nat × Char) : Int :=
  if vu.2 = 's' then (vu.1 : Int)
  else if vu.2 = 'm' then (vu.1 : Int) * 60
  else if vu.2 = 'h' then (vu.1 : Int) * 3600
  else if vu.2 = 'd' then (vu.1 : Int) * 86400
  else if vu.2 = 'w' then (vu.1 : Int) * 604800
  else 0

/-- Digit part of Python `int(string)`: decimal digits with single
underscores allowed between digits. -/
def pyIntCore : Option Nat → List Char → Option Nat
  | acc, [] => acc
  | acc, c :: rest =>
    if c.isDigit then pyIntCore (some (acc.getD 0 * 10 + charVal c)) rest
    else if c = '_' then
      match acc, rest with
      | some a, c2 :: _ => if c2.isDigit then pyIntCore (some a) rest else none
      | _, _ => none
    else none

/-- Python `str.strip()`: drop whitespace from both ends. -/
def pyStrip (s : String) : String :=
  String.mk (((s.data.dropWhile Char.isWhitespace).reverse.dropWhile Char.isWhitespace).reverse)

/-- Python `int(s)` on a string: surrounding whitespace stripped, an optional
sign, then a digit group; `none` models the `ValueError`. -/
def pyInt (s : String) : Option Int :=
  let cs := (pyStrip s).data
  match cs with
  | '-' :: rest => (pyIntCore none rest).map (fun n => -(n : Int))
  | '+' :: rest => (pyIntCore none rest).map (fun n => (n : Int))
  | _ => (pyIntCore none cs).map (fun n => (n : Int))

/-- Embedding of `parse_duration` (main.py lines 31-54): sum the scanned
`<integer><unit>` tokens of the lowercased input; if the total is zero, fall
back to `int(s) * 3600`; `none` models the `sys.exit(1)` error path. -/
def parse_duration (s : String) : Option Int :=
  let total : Int := (scanTokens (s.data.map Char.toLower)).foldl (fun acc vu => acc + tokenVal vu) 0
  if total = 0 then (pyInt s).map (fun n => n * 3600) else some total

/-- Embedding of `format_duration` (main.py lines 57-73).  Python `//` and
`%` are floor division and floor modulus, hence `Int.fdiv` / `Int.fmod`. -/
def format_duration (seconds : Int) : String :=
  if seconds < 60 then intRepr seconds ++ "s"
  else if seconds < 3600 then intRepr (seconds.fdiv 60) ++ "m"
  else if seconds < 86400 then
    let h := seconds.fdiv 3600
    let m := (seconds.fmod 3600).fdiv 60
    if m ≠ 0 then intRepr h ++ "h" ++ intRepr m ++ "m" else intRepr h ++ "h"
  else
    let d := seconds.fdiv 86400
    let h := (seconds.fmod 86400).fdiv 3600
    if h ≠ 0 then intRepr d ++ "d" ++ intRepr h ++ "h" else intRepr d ++ "d"

/-- Embedding of `format_ago` (main.py lines 76-82); the clock read
`time.time()` is passed in as `now`. -/
def format_ago (epoch : Option Int) (now : Int) : String :=
  match epoch with
  | none => "never"
  | some e =>
    let diff := now - e
    if diff < 0 then "just now" else format_duration diff ++ " ago"

/-- Python truthiness of an optional number: `None` and `0` are falsy. -/
def truthy : Option Int → Bool
  | none => false
  | some v => v ≠ 0

/-- Python truthiness of an optional string: `None` and `""` are falsy. -/
def truthyStr : Option String → Bool
  | none => false
  | some s => s ≠ ""

/-- One persisted check record, with the fields the program stores in
`checks.json`.  Absent optional fields are `none`. -/
structure Check where
  command : List String := []
  sdtimer : Option String := none
  every : Int
  last_run : Option Int := none
  last_ok : Option Int := none
  last_fail : Option Int := none
  fail_msg : Option String := none
  service_ran : Option Int := none
  created : Int := 0
  deriving Repr, DecidableEq

/-- Embedding of `check_status` (main.py lines 85-103), the pure status
evaluator; both `time.time()` reads are the injected `now`. -/
def check_status (check : Check) (now : Int) : Bool × String :=
  if truthy check.last_fail &&
      (!truthy check.last_ok || decide (check.last_fail.getD 0 > check.last_ok.getD 0)) then
    (false, "FAILED: " ++ check.fail_msg.getD "failed")
  else
    match check.last_ok with
    | none => (false, "never run")
    | some last_ok =>
      let age := now - last_ok
      if age > check.every then
        (false, "OVERDUE " ++ format_duration (age - check.every))
      else
        (true, format_ago (some (check.service_ran.getD last_ok)) now)

/-- Result of the abstract process executor for a direct command: a completed
run with exit code and captured output, or one of the raised exceptions. -/
inductive ExecResult where
  | completed (returncode : Int) (stdout stderr : String)
  | fileNotFound
  | timedOut
  | otherError (msg : String)
  deriving Repr, DecidableEq

/-- Embedding of `run_sdtimer_check` (main.py lines 229-280).  The systemd
queries are abstracted per the spec's external-timer contract: `result` is
the `Result` property string and `completion` the parsed
`ExecMainExitTimestamp` (`none` when the timestamp string is empty). -/
def run_sdtimer_check (check : Check) (result : String) (completion : Option Int)
    (now : Int) : Check × Bool × String :=
  let every := check.every
  match completion with
  | none =>
    ({check with last_fail := some now, fail_msg := some "never run"}, false, "never run")
  | some epoch =>
    let age := now - epoch
    if result ≠ "success" then
      let m := "result=" ++ result
      ({check with last_fail := some now, fail_msg := some m}, false, m)
    else if age > every then
      let m := "last run " ++ format_duration age ++ " ago"
      ({check with last_fail := some now, fail_msg := some m}, false, m)
    else
      let c := {check with last_ok := some now, last_fail := none, fail_msg := none, service_ran := some epoch}
      (c, true, "ok (ran " ++ format_ago (some epoch) now ++ ")")

/-- Embedding of `run_check` (main.py lines 183-226): stamp `last_run`, then
dispatch on a truthy `sdtimer` field; the direct-command path applies the
abstract executor result `res`. -/
def run_check (check : Check) (res : ExecResult) (sdresult : String)
    (sdcompletion : Option Int) (now : Int) : Check × Bool × String :=
  let check := {check with last_run := some now}
  if truthyStr check.sdtimer then
    run_sdtimer_check check sdresult sdcompletion now
  else
    match res with
    | .completed rc out err =>
      if rc = 0 then
        ({check with last_ok := some now, last_fail := none, fail_msg := none}, true, "ok")
      else
        let check := {check with last_fail := some now}
        let stderr := pyStrip err
        let stdout := pyStrip out
        let msg := if stderr ≠ "" then stderr
          else if stdout ≠ "" then stdout else "exit " ++ intRepr rc
        let msg := if msg.length > 200 then String.mk (msg.data.take 200) ++ "..." else msg
        ({check with fail_msg := some msg}, false, msg)
    | .fileNotFound =>
      let m := "command not found: " ++ check.command.headD ""
      ({check with last_fail := some now, fail_msg := some m}, false, m)
    | .timedOut =>
      ({check with last_fail := some now, fail_msg := some "timeout (300s)"},
        false, "timeout (300s)")
    | .otherError e =>
      ({check with last_fail := some now, fail_msg := some e}, false, e)

/-- Dictionary lookup `checks[name]` / `checks.get(name)` on the registry,
modelled as an association list keyed by check name. -/
def lookupKey (checks : List (String × Check)) (name : String) : Option Check :=
  match checks with
  | [] => none
  | p :: rest => if p.1 = name then some p.2 else lookupKey rest name

/-- Dictionary assignment `checks[name] = c`: replace in place, or append. -/
def setKey (checks : List (String × Check)) (name : String) (c : Check) :
    List (String × Check) :=
  match checks with
  | [] => [(name, c)]
  | p :: rest => if p.1 = name then (name, c) :: rest else p :: setKey rest name c

/-- Dictionary deletion `del checks[name]`. -/
def delKey (checks : List (String × Check)) (name : String) : List (String × Check) :=
  match checks with
  | [] => []
  | p :: rest => if p.1 = name then rest else p :: delKey rest name

/-- Fresh record built by `cmd_add` for a direct command (main.py 154-162). -/
def mkCommandCheck (command : List String) (every : Int) (created : Int) : Check :=
  { command := command, every := every, last_run := none, last_ok := none,
    last_fail := none, fail_msg := none, created := created }

/-- Fresh record built by `cmd_add` for a systemd timer (main.py 139-147). -/
def mkSdtimerCheck (sdtimer : String) (every : Int) (created : Int) : Check :=
  { sdtimer := some sdtimer, every := every, last_run := none, last_ok := none,
    last_fail := none, fail_msg := none, created := created }

/-- Registry mutation of `cmd_add` (main.py lines 106-164), after argument
parsing: `checks[name] = {...}` with the record picked by a truthy
`--sdtimer` value. -/
def cmd_add (checks : List (String × Check)) (name : String) (every : Int)
    (sdtimer : Option String) (command : List String) (created : Int) :
    List (String × Check) :=
  if truthyStr sdtimer then
    setKey checks name (mkSdtimerCheck (sdtimer.getD "") every created)
  else
    setKey checks name (mkCommandCheck command every created)

/-- Registry mutation of `cmd_rm` (main.py lines 167-180); `none` models the
`sys.exit(1)` on an unknown name, before any mutation. -/
def cmd_rm (checks : List (String × Check)) (name : String) :
    Option (List (String × Check)) :=
  match lookupKey checks name with
  | none => none
  | some _ => some (delKey checks name)

/-- Registry mutation of `cmd_edit` (main.py lines 372-392); `newEvery` is
the parsed `--every` value when one was supplied. -/
def cmd_edit (checks : List (String × Check)) (name : String)
    (newEvery : Option Int) : Option (List (String × Check)) :=
  match lookupKey checks name with
  | none => none
  | some c =>
    some (setKey checks name (match newEvery with
      | some e => {c with every := e}
      | none => c))

/-- Registry mutation of `cmd_reset` (main.py lines 395-411). -/
def cmd_reset (checks : List (String × Check)) (name : String) :
    Option (List (String × Check)) :=
  match lookupKey checks name with
  | none => none
  | some c =>
    some (setKey checks name
      {c with last_run := none, last_ok := none, last_fail := none, fail_msg := none})

/-- Due-selection loop of `cmd_run` (main.py lines 283-312): iterate the
registry in name-sorted order, keep the names that pass the optional name
filter and are due (`force`, or `last_run` falsy, or `now - last_run`
at least `every`); these are exactly the checks that get run. -/
def selectDue (checks : List (String × Check)) (names : List String)
    (now : Int) (force : Bool) : List String :=
  ((List.insertionSort (fun a b : String × Check => a.1 ≤ b.1) checks).filter
    (fun nc => (names.isEmpty || names.contains nc.1) &&
      (force || !(truthy nc.2.last_run &&
        decide (now - nc.2.last_run.getD 0 < nc.2.every))))).map Prod.fst

/-! ### Helper lemmas: decimal digits and `natRepr` -/

theorem charVal_digitChar {d : Nat} (h : d < 10) : charVal (digitChar d) = d := by
  interval_cases d <;> decide

theorem isDigit_digitChar {d : Nat} (h : d < 10) : (digitChar d).isDigit = true := by
  interval_cases d <;> decide

theorem toLower_digitChar {d : Nat} (h : d < 10) : (digitChar d).toLower = digitChar d := by
  interval_cases d <;> decide

theorem map_self {α : Type} (f : α → α) :
    ∀ l : List α, (∀ c ∈ l, f c = c) → l.map f = l := by
  intro l h
  induction l with
  | nil => rfl
  | cons c rest ih =>
    simp only [List.map_cons, h c (by simp)]
    rw [ih (fun x hx => h x (by simp [hx]))]

theorem natReprAux_digits : ∀ (fuel n : Nat), ∀ c ∈ natReprAux fuel n, c.isDigit = true := by
  intro fuel
  induction fuel with
  | zero => intro n c hc; simp [natReprAux] at hc
  | succ fuel ih =>
    intro n c hc
    by_cases h : n < 10
    · simp [natReprAux, h] at hc
      subst hc; exact isDigit_digitChar h
    · simp [natReprAux, h] at hc
      rcases hc with hc | hc
      · exact ih _ c hc
      · subst hc; exact isDigit_digitChar (Nat.mod_lt _ (by omega))

theorem natReprAux_ne_nil : ∀ (fuel n : Nat), 0 < fuel → natReprAux fuel n ≠ [] := by
  intro fuel n hf
  match fuel, hf with
  | fuel + 1, _ =>
    by_cases h : n < 10 <;> simp [natReprAux, h]

theorem foldl_digits_acc (l : List Char) :
    ∀ a : Nat, l.foldl (fun x c => x * 10 + charVal c) a = a * 10 ^ l.length + digitsVal l := by
  induction l with
  | nil => intro a; simp [digitsVal]
  | cons c rest ih =>
    intro a
    simp only [List.foldl_cons, digitsVal, List.length_cons]
    rw [ih (a * 10 + charVal c)]
    have h2 : List.foldl (fun x c => x * 10 + charVal c) (0 * 10 + charVal c) rest
        = (charVal c) * 10 ^ rest.length + digitsVal rest := by
      rw [show 0 * 10 + charVal c = charVal c by omega, ih (charVal c)]
    rw [h2]; ring

theorem digitsVal_append_digit (l : List Char) (c : Char) :
    digitsVal (l ++ [c]) = digitsVal l * 10 + charVal c := by
  simp only [digitsVal, List.foldl_append, List.foldl_cons, List.foldl_nil]

theorem natReprAux_val : ∀ (fuel n : Nat), n < 10 ^ fuel →
    digitsVal (natReprAux fuel n) = n := by
  intro fuel
  induction fuel with
  | zero => intro n h; interval_cases n; rfl
  | succ fuel ih =>
    intro n h
    by_cases h10 : n < 10
    · simp [natReprAux, h10, digitsVal, charVal_digitChar h10]
    · have hdiv : n / 10 < 10 ^ fuel := by
        apply Nat.div_lt_of_lt_mul
        calc n < 10 ^ (fuel + 1) := h
        _ = 10 * 10 ^ fuel := by ring
      simp only [natReprAux, h10, if_false]
      rw [digitsVal_append_digit, ih _ hdiv, charVal_digitChar (Nat.mod_lt _ (by omega))]
      omega

theorem natRepr_lt_pow (n : Nat) : n < 10 ^ (n + 1) :=
  Nat.lt_of_lt_of_le (Nat.lt_two_pow n)
    (Nat.le_trans (Nat.pow_le_pow_left (by omega) n) (Nat.le_of_lt (Nat.pow_lt_pow_right (by omega) (by omega))))

theorem digitsVal_natRepr (n : Nat) : digitsVal (natRepr n).data = n :=
  natReprAux_val (n + 1) n (natRepr_lt_pow n)

theorem natRepr_digits (n : Nat) : ∀ c ∈ (natRepr n).data, c.isDigit = true :=
  natReprAux_digits (n + 1) n

theorem natRepr_data_ne_nil (n : Nat) : (natRepr n).data ≠ [] :=
  natReprAux_ne_nil (n + 1) n (by omega)

theorem natRepr_toLower (n : Nat) : (natRepr n).data.map Char.toLower = (natRepr n).data := by
  apply map_self
  intro c hc
  have hd := natRepr_digits n c hc
  have : c.toNat < 58 ∧ 48 ≤ c.toNat := by
    simp [Char.isDigit] at hd
    rcases hd with ⟨h1, h2⟩
    constructor
    · simpa using Nat.lt_succ_of_le h2
    · simpa using h1
  simp [Char.toLower]
  omega

/-! ### Helper lemmas: the token scanner -/

theorem scanAux_nil : ∀ fuel, scanAux fuel [] = [] := by
  intro fuel; cases fuel <;> rfl

theorem length_dropWhile_le (p : Char → Bool) :
    ∀ l : List Char, (l.dropWhile p).length ≤ l.length := by
  intro l
  induction l with
  | nil => simp
  | cons c rest ih =>
    by_cases h : p c
    · rw [List.dropWhile_cons_of_pos h]; exact le_trans ih (by simp)
    · rw [List.dropWhile_cons_of_neg h]

theorem unit_not_digit {u : Char} (hu : isUnit u = true) : u.isDigit = false := by
  simp only [isUnit, Bool.or_eq_true, decide_eq_true_eq] at hu
  rcases hu with ((((h | h) | h) | h) | h) <;> subst h <;> decide

theorem unit_not_ws {u : Char} (hu : isUnit u = true) : u.isWhitespace = false := by
  simp only [isUnit, Bool.or_eq_true, decide_eq_true_eq] at hu
  rcases hu with ((((h | h) | h) | h) | h) <;> subst h <;> decide

theorem unit_toLower {u : Char} (hu : isUnit u = true) : u.toLower = u := by
  simp only [isUnit, Bool.or_eq_true, decide_eq_true_eq] at hu
  rcases hu with ((((h | h) | h) | h) | h) <;> subst h <;> decide

theorem scanAux_fuel : ∀ (fuel fuel' : Nat) (l : List Char),
    l.length ≤ fuel → l.length ≤ fuel' → scanAux fuel l = scanAux fuel' l := by
  intro fuel
  induction fuel with
  | zero =>
    intro fuel' l h _
    have hl : l = [] := by cases l with | nil => rfl | cons c r => simp at h
    subst hl; rw [scanAux_nil, scanAux_nil]
  | succ fuel ih =>
    intro fuel' l h h'
    cases l with
    | nil => rw [scanAux_nil, scanAux_nil]
    | cons c rest =>
      cases fuel' with
      | zero => simp at h'
      | succ fuel' =>
        simp only [List.length_cons] at h h'
        simp only [scanAux]
        by_cases hc : c.isDigit
        · simp only [hc, if_true]
          have hlen : ((List.dropWhile Char.isDigit (c :: rest)).dropWhile
              Char.isWhitespace).length ≤ rest.length := by
            rw [List.dropWhile_cons_of_pos hc]
            exact le_trans (length_dropWhile_le _ _) (length_dropWhile_le _ _)
          cases hdw : (List.dropWhile Char.isDigit (c :: rest)).dropWhile Char.isWhitespace with
          | nil => rfl
          | cons u rest3 =>
            rw [hdw] at hlen
            simp only [List.length_cons] at hlen
            by_cases hu : isUnit u
            · simp only [hu, if_true]
              rw [ih fuel' rest3 (by omega) (by omega)]
            · simp only [hu, Bool.false_eq_true, if_false]
              exact ih fuel' rest (by omega) (by omega)
        · simp only [hc, Bool.false_eq_true, if_false]
          exact ih fuel' rest (by omega) (by omega)

theorem scanTokens_token (a : Nat) (u : Char) (hu : isUnit u = true) (rest : List Char) :
    scanTokens ((natRepr a).data ++ u :: rest) = (a, u) :: scanTokens rest := by
  obtain ⟨c, ds, hcd⟩ : ∃ c ds, (natRepr a).data = c :: ds := by
    cases h : (natRepr a).data with
    | nil => exact absurd h (natRepr_data_ne_nil a)
    | cons c ds => exact ⟨c, ds, rfl⟩
  have hdig : ∀ x ∈ (natRepr a).data, Char.isDigit x = true := natRepr_digits a
  have hdigTake : ((natRepr a).data ++ u :: rest).takeWhile Char.isDigit = (natRepr a).data := by
    rw [List.takeWhile_append_of_pos (by intro x hx; exact hdig x hx),
      List.takeWhile_cons_of_neg (by simp [unit_not_digit hu]), List.append_nil]
  have hdigDrop : ((natRepr a).data ++ u :: rest).dropWhile Char.isDigit = u :: rest := by
    rw [List.dropWhile_append_of_pos (by intro x hx; exact hdig x hx),
      List.dropWhile_cons_of_neg (by simp [unit_not_digit hu])]
  have hwsDrop : (((natRepr a).data ++ u :: rest).dropWhile Char.isDigit).dropWhile
      Char.isWhitespace = u :: rest := by
    rw [hdigDrop, List.dropWhile_cons_of_neg (by simp [unit_not_ws hu])]
  have hc : c.isDigit = true := hdig c (by rw [hcd]; simp)
  have hlist : (natRepr a).data ++ u :: rest = c :: (ds ++ u :: rest) := by
    rw [hcd]; simp
  have hlenEq : ((natRepr a).data ++ u :: rest).length = (ds.length + rest.length + 1) + 1 := by
    rw [hcd]; simp; omega
  rw [hlist] at hdigTake hdigDrop hwsDrop
  show scanAux ((natRepr a).data ++ u :: rest).length ((natRepr a).data ++ u :: rest)
      = (a, u) :: scanTokens rest
  rw [hlenEq, hlist]
  simp only [scanAux, hc, if_true, hwsDrop, hu, hdigTake, digitsVal_natRepr]
  congr 1
  simp only [scanTokens]
  exact scanAux_fuel _ _ rest (by omega) (le_refl _)

/-! ### Helper lemmas: duration codec evaluation -/

theorem fdiv_coe (m n : Nat) : (↑m : Int).fdiv ↑n = ↑(m / n) := by
  cases m with
  | zero => simp [Int.fdiv]
  | succ k => rfl

theorem fmod_coe (m n : Nat) : (↑m : Int).fmod ↑n = ↑(m % n) := by
  cases m with
  | zero => simp [Int.fmod]
  | succ k => rfl

theorem intRepr_coe (n : Nat) : intRepr ↑n = natRepr n := by
  unfold intRepr
  rw [if_neg (by omega)]
  norm_num

theorem format_duration_coe (n : Nat) :
    format_duration ↑n =
      if n < 60 then natRepr n ++ "s"
      else if n < 3600 then natRepr (n / 60) ++ "m"
      else if n < 86400 then
        (if n % 3600 / 60 ≠ 0 then natRepr (n / 3600) ++ "h" ++ natRepr (n % 3600 / 60) ++ "m"
         else natRepr (n / 3600) ++ "h")
      else
        (if n % 86400 / 3600 ≠ 0 then natRepr (n / 86400) ++ "d" ++ natRepr (n % 86400 / 3600) ++ "h"
         else natRepr (n / 86400) ++ "d") := by
  simp only [format_duration]
  rw [show ((n : Int)).fdiv 60 = ((n / 60 : Nat) : Int) from fdiv_coe n 60]
  rw [show ((n : Int)).fdiv 3600 = ((n / 3600 : Nat) : Int) from fdiv_coe n 3600]
  rw [show ((n : Int)).fmod 3600 = ((n % 3600 : Nat) : Int) from fmod_coe n 3600]
  rw [show ((n % 3600 : Nat) : Int).fdiv 60 = ((n % 3600 / 60 : Nat) : Int) from fdiv_coe _ 60]
  rw [show ((n : Int)).fdiv 86400 = ((n / 86400 : Nat) : Int) from fdiv_coe n 86400]
  rw [show ((n : Int)).fmod 86400 = ((n % 86400 : Nat) : Int) from fmod_coe n 86400]
  rw [show ((n % 86400 : Nat) : Int).fdiv 3600 = ((n % 86400 / 3600 : Nat) : Int) from fdiv_coe _ 3600]
  simp only [intRepr_coe]
  split_ifs <;> first | rfl | omega

theorem tokenVal_s (a : Nat) : tokenVal (a, 's') = (a : Int) := rfl

theorem tokenVal_m (a : Nat) : tokenVal (a, 'm') = (a : Int) * 60 := rfl

theorem tokenVal_h (a : Nat) : tokenVal (a, 'h') = (a : Int) * 3600 := rfl

theorem tokenVal_d (a : Nat) : tokenVal (a, 'd') = (a : Int) * 86400 := rfl

theorem tokenVal_w (a : Nat) : tokenVal (a, 'w') = (a : Int) * 604800 := rfl

theorem parse_token_one (a : Nat) (u : Char) (us : String) (hus : us.data = [u])
    (hu : isUnit u = true) (hnz : tokenVal (a, u) ≠ 0) :
    parse_duration (natRepr a ++ us) = some (tokenVal (a, u)) := by
  have hlow : ((natRepr a ++ us).data.map Char.toLower) = (natRepr a).data ++ u :: [] := by
    rw [String.data_append, hus, List.map_append, natRepr_toLower]
    simp [unit_toLower hu]
  simp only [parse_duration]
  rw [hlow, scanTokens_token a u hu []]
  simp only [scanTokens, List.length_nil, scanAux, List.foldl_cons, List.foldl_nil, zero_add]
  rw [if_neg hnz]

theorem parse_token_two (a b : Nat) (u v : Char) (us vs : String)
    (hus : us.data = [u]) (hvs : vs.data = [v])
    (hu : isUnit u = true) (hv : isUnit v = true)
    (hnz : tokenVal (a, u) + tokenVal (b, v) ≠ 0) :
    parse_duration (natRepr a ++ us ++ natRepr b ++ vs)
      = some (tokenVal (a, u) + tokenVal (b, v)) := by
  have hlow : ((natRepr a ++ us ++ natRepr b ++ vs).data.map Char.toLower)
      = (natRepr a).data ++ u :: ((natRepr b).data ++ v :: []) := by
    simp only [String.data_append, hus, hvs, List.map_append, natRepr_toLower,
      List.map_cons, List.map_nil, unit_toLower hu, unit_toLower hv]
    simp [List.append_assoc]
  simp only [parse_duration]
  rw [hlow, scanTokens_token a u hu, scanTokens_token b v hv []]
  simp only [scanTokens, List.length_nil, scanAux, List.foldl_cons, List.foldl_nil, zero_add]
  rw [if_neg hnz]

/-- Truncated second count that `parse_duration` recovers from
`format_duration n` for a positive `n`: the value is cut to the granularity
of the rendered unit pair.  This is a proof-layer characterization, not part
of the embedded program. -/
def canon (n : Nat) : Nat :=
  if n < 60 then n
  else if n < 3600 then n / 60 * 60
  else if n < 86400 then
    (if n % 3600 / 60 ≠ 0 then n / 3600 * 3600 + n % 3600 / 60 * 60 else n / 3600 * 3600)
  else
    (if n % 86400 / 3600 ≠ 0 then n / 86400 * 86400 + n % 86400 / 3600 * 3600
     else n / 86400 * 86400)

theorem parse_format_canon (n : Nat) (hn : 0 < n) :
    parse_duration (format_duration ↑n) = some ↑(canon n) := by
  rw [format_duration_coe]
  unfold canon
  by_cases h1 : n < 60
  · simp only [if_pos h1]
    rw [parse_token_one n 's' "s" rfl rfl (by rw [tokenVal_s]; omega), tokenVal_s]
  · by_cases h2 : n < 3600
    · simp only [if_neg h1, if_pos h2]
      rw [parse_token_one (n / 60) 'm' "m" rfl rfl (by rw [tokenVal_m]; omega), tokenVal_m]
      congr 1
      try push_cast
      try ring
    · by_cases h3 : n < 86400
      · simp only [if_neg h1, if_neg h2, if_pos h3]
        by_cases hm : n % 3600 / 60 ≠ 0
        · simp only [if_pos hm]
          rw [parse_token_two (n / 3600) (n % 3600 / 60) 'h' 'm' "h" "m" rfl rfl rfl rfl
            (by rw [tokenVal_h, tokenVal_m]; omega)]
          rw [tokenVal_h, tokenVal_m]
          congr 1
          try push_cast
          try ring
        · simp only [if_neg hm]
          rw [parse_token_one (n / 3600) 'h' "h" rfl rfl (by rw [tokenVal_h]; omega), tokenVal_h]
          congr 1
          try push_cast
          try ring
      · simp only [if_neg h1, if_neg h2, if_neg h3]
        by_cases hh : n % 86400 / 3600 ≠ 0
        · simp only [if_pos hh]
          rw [parse_token_two (n / 86400) (n % 86400 / 3600) 'd' 'h' "d" "h" rfl rfl rfl rfl
            (by rw [tokenVal_d, tokenVal_h]; omega)]
          rw [tokenVal_d, tokenVal_h]
          congr 1
          try push_cast
          try ring
        · simp only [if_neg hh]
          rw [parse_token_one (n / 86400) 'd' "d" rfl rfl (by rw [tokenVal_d]; omega), tokenVal_d]
          congr 1
          try push_cast
          try ring

theorem canon_pos {n : Nat} (hn : 0 < n) : 0 < canon n := by
  unfold canon
  split_ifs <;> omega

theorem canon_fixed (m : Nat)
    (h : m < 60 ∨ (m < 3600 ∧ m % 60 = 0) ∨ (m < 86400 ∧ m % 60 = 0) ∨ m % 3600 = 0) :
    canon m = m := by
  unfold canon
  split_ifs <;> omega

theorem canon_branch (n : Nat) (hn : 0 < n) :
    canon n < 60 ∨ (canon n < 3600 ∧ canon n % 60 = 0) ∨
      (canon n < 86400 ∧ canon n % 60 = 0) ∨ canon n % 3600 = 0 := by
  unfold canon
  split_ifs <;> omega

theorem canon_idem (n : Nat) (hn : 0 < n) : canon (canon n) = canon n :=
  canon_fixed (canon n) (canon_branch n hn)

/-! ### Claim C5 -/

/-- C5: for every second count in the image of `format_duration` under
`parse_duration` (every `x = parse(format(y))` for a positive `y`),
`parse(format(x)) = x`: the format-then-parse round trip is idempotent on
the canonical values producible by `format_duration`. -/
theorem c5_parse_format_roundtrip (y x : Int) (hy : 0 < y)
    (hp : parse_duration (format_duration y) = some x) :
    parse_duration (format_duration x) = some x := by
  have hyn : y = ((y.toNat : Nat) : Int) := by omega
  rw [hyn] at hp
  rw [parse_format_canon y.toNat (by omega)] at hp
  injection hp with h
  rw [← h, parse_format_canon (canon y.toNat) (canon_pos (by omega)),
    canon_idem y.toNat (by omega)]

/-- Witness for C5 at `y = 90`: `format 90 = "1m"`, which parses to `60`,
and `60` round-trips to itself. -/
theorem c5_witness : (0 : Int) < 90 ∧ parse_duration (format_duration 90) = some 60 ∧
    parse_duration (format_duration 60) = some 60 :=
  ⟨by decide, by decide, c5_parse_format_roundtrip 90 60 (by decide) (by decide)⟩

/-! ### Claim C4 -/

/-- Seconds for each unit letter as the spec tabulates them
(s=1, m=60, h=3600, d=86400, w=604800); other characters contribute 0. -/
def unitSeconds (c : Char) : Int :=
  if c = 's' then 1
  else if c = 'm' then 60
  else if c = 'h' then 3600
  else if c = 'd' then 86400
  else if c = 'w' then 604800
  else 0

theorem tokenVal_eq_unitSeconds (vu : Nat × Char) :
    tokenVal vu = (vu.1 : Int) * unitSeconds vu.2 := by
  rcases vu with ⟨a, u⟩
  unfold tokenVal unitSeconds
  split_ifs <;> ring

theorem foldl_tokenVal (l : List (Nat × Char)) : ∀ acc : Int,
    l.foldl (fun acc vu => acc + tokenVal vu) acc
      = acc + (l.map (fun vu => (vu.1 : Int) * unitSeconds vu.2)).sum := by
  induction l with
  | nil => intro acc; simp
  | cons v rest ih =>
    intro acc
    rw [List.foldl_cons, ih, tokenVal_eq_unitSeconds, List.map_cons, List.sum_cons]
    ring

/-- C4 counterexample: contrary to the claim, the bare-integer input `"0"`
does not fail with `InvalidDuration`; the integer fallback accepts it and
`parse_duration` returns the (zero) value `0`. -/
theorem c4_counterexample : parse_duration "0" = some 0 := by decide

/-- C4 (amended): `parse_duration` sums all `<integer><unit>` tokens with
s=1, m=60, h=3600, d=86400, w=604800; when the token total is zero it
interprets the whole string as a Python integer literal counting hours, and
it fails exactly when that fallback fails too.  So `"1d12h" = 129600`,
`"90" = 324000`, and `"0m"` fails, but the bare integer `"0"` is accepted
with value `0` (the zero-total check happens before the fallback, not
after it). -/
theorem c4_parse_duration_amended :
    (∀ s : String,
      parse_duration s =
        if ((scanTokens (s.data.map Char.toLower)).map
            (fun vu => (vu.1 : Int) * unitSeconds vu.2)).sum = 0
        then (pyInt s).map (fun n => n * 3600)
        else some ((scanTokens (s.data.map Char.toLower)).map
            (fun vu => (vu.1 : Int) * unitSeconds vu.2)).sum) ∧
    parse_duration "1d12h" = some 129600 ∧
    parse_duration "90" = some 324000 ∧
    parse_duration "0m" = none ∧
    parse_duration "0" = some 0 := by
  refine ⟨?_, by decide, by decide, by decide, by decide⟩
  intro s
  simp only [parse_duration]
  rw [foldl_tokenVal _ 0]
  simp

/-! ### Claim C1 -/

/-- C1 counterexample: a record with `lastFailAt` present but equal to `0`
and `lastOkAt` unset satisfies the claim's antecedent (`lastFailAt` set,
`lastOkAt` unset), yet `check_status` reports `"never run"`, not the
claimed `"FAILED: ..."` message: Python truthiness skips the failure rule
for a zero timestamp. -/
theorem c1_counterexample :
    check_status { every := 100, last_fail := some 0, last_ok := none } 5
      = (false, "never run") ∧
    (false, "never run") ≠ ((false, "FAILED: failed") : Bool × String) :=
  ⟨by decide, by decide⟩

/-- C1 (amended): for every check whose `lastFailAt` is set to a nonzero
timestamp and whose `lastOkAt` is either unset or older than `lastFailAt`,
`check_status` is unhealthy with message
`"FAILED: <lastFailMessage or 'failed'>"`, for every `now`, regardless of
`interval` — the failure rule dominates the staleness rules. -/
theorem c1_failed_dominates (check : Check) (now f : Int)
    (hf : check.last_fail = some f) (hf0 : f ≠ 0)
    (h : check.last_ok = none ∨ ∃ o, check.last_ok = some o ∧ o < f) :
    check_status check now = (false, "FAILED: " ++ check.fail_msg.getD "failed") := by
  have hg : (truthy check.last_fail && (!truthy check.last_ok ||
      decide (check.last_fail.getD 0 > check.last_ok.getD 0))) = true := by
    rw [hf]
    rcases h with h | ⟨o, ho, hlt⟩
    · rw [h]; simp [truthy, hf0]
    · rw [ho]; simp [truthy, hf0]; omega
  unfold check_status
  rw [if_pos hg]

/-- Witness for C1 (amended) at a concrete record. -/
theorem c1_witness :
    check_status { every := 10, last_fail := some 100, last_ok := some 50, fail_msg := some "boom" } 0
      = (false, "FAILED: boom") :=
  c1_failed_dominates _ 0 100 rfl (by decide) (Or.inr ⟨50, rfl, by decide⟩)

/-! ### Claim C2 -/

/-- C2 counterexample: a record whose set `lastFailAt = -1` is older than
its set `lastOkAt = 0` has "no failure newer than the last success", so the
claim predicts the healthy/overdue/never-run rules; but because `lastOkAt`
is `0` (falsy), `check_status` fires the failure rule instead. -/
theorem c2_counterexample :
    (some (-1 : Int)).getD 0 ≤ (some (0 : Int)).getD 0 ∧
    check_status { every := 100, last_fail := some (-1), last_ok := some 0 } 5
      = (false, "FAILED: failed") :=
  ⟨by decide, by decide⟩

/-- C2 (amended): for every check record with no failure newer than the
last success — under the code's truthiness reading: `lastFailAt` unset or
zero, or `lastOkAt` set and nonzero with `lastFailAt ≤ lastOkAt` —
`check_status` returns unhealthy `"never run"` when `lastOkAt` is unset;
unhealthy `"OVERDUE <formatted(age - interval)>"` when
`age = now - lastOkAt` exceeds `interval`; and otherwise healthy with the
relative-time message computed from `externalRanAt` when present, else from
`lastOkAt`, rendering `"just now"` when the computed elapsed time is
negative. -/
theorem c2_staleness_rules (check : Check) (now : Int)
    (h : check.last_fail = none ∨ check.last_fail = some 0 ∨
      ∃ f o, check.last_fail = some f ∧ check.last_ok = some o ∧ o ≠ 0 ∧ f ≤ o) :
    (check.last_ok = none → check_status check now = (false, "never run")) ∧
    (∀ o, check.last_ok = some o → now - o > check.every →
      check_status check now = (false, "OVERDUE " ++ format_duration (now - o - check.every))) ∧
    (∀ o, check.last_ok = some o → ¬(now - o > check.every) →
      check_status check now = (true,
        if now - check.service_ran.getD o < 0 then "just now"
        else format_duration (now - check.service_ran.getD o) ++ " ago")) := by
  have hg : ¬((truthy check.last_fail && (!truthy check.last_ok ||
      decide (check.last_fail.getD 0 > check.last_ok.getD 0))) = true) := by
    rcases h with h | h | ⟨f, o, hf, ho, ho0, hfo⟩
    · rw [h]; simp [truthy]
    · rw [h]; simp [truthy]
    · rw [hf, ho]; simp [truthy]; omega
  refine ⟨?_, ?_, ?_⟩
  · intro ho
    unfold check_status
    rw [if_neg hg, ho]
  · intro o ho hage
    unfold check_status
    rw [if_neg hg, ho]
    simp only [if_pos hage]
  · intro o ho hage
    unfold check_status
    rw [if_neg hg, ho]
    simp only [if_neg hage, format_ago]

/-- Witness for C2 (amended) at a concrete healthy record. -/
theorem c2_witness : check_status { every := 100, last_ok := some 10 } 15 = (true, "5s ago") := by
  have h := (c2_staleness_rules { every := 100, last_ok := some 10 } 15 (Or.inl rfl)).2.2 10 rfl
    (by decide)
  rw [h]
  decide

/-! ### Claim C10 -/

/-- C10: the evaluator distinguishes set from unset timestamps by Python
truthiness, so a stored `lastFailAt` of `0` behaves exactly as if it were
unset: the failure rule is skipped entirely (the record evaluates the same
as with `lastFailAt` cleared), and with `lastOkAt` unset such a record is
reported `"never run"` rather than `"FAILED"`. -/
theorem c10_zero_last_fail (check : Check) (now : Int) (h : check.last_fail = some 0) :
    check_status check now = check_status {check with last_fail := none} now ∧
    (check.last_ok = none → check_status check now = (false, "never run")) := by
  constructor
  · unfold check_status
    rw [h]
    simp [truthy]
  · intro ho
    unfold check_status
    rw [h, ho]
    simp [truthy]

/-- Witness for C10 at a concrete record. -/
theorem c10_witness :
    check_status { every := 100, last_fail := some 0, last_ok := some 50 } 60
      = check_status { every := 100, last_fail := none, last_ok := some 50 } 60 :=
  (c10_zero_last_fail { every := 100, last_fail := some 0, last_ok := some 50 } 60 rfl).1

/-! ### Claim C6 -/

/-- C6: for every external-timer check, `run_sdtimer_check` yields failure
`"never run"` when no completion timestamp is available; failure
`"result=<classification>"` when the classification is not `"success"`;
failure `"last run <formatted age> ago"` when `age = now - completion`
exceeds the interval; and otherwise success, recording the completion
timestamp into `service_ran` (`externalRanAt`) — the cases decided in that
order. -/
theorem c6_sdtimer_cases (check : Check) (result : String) (completion : Option Int)
    (now : Int) :
    (completion = none →
      run_sdtimer_check check result completion now
        = ({check with last_fail := some now, fail_msg := some "never run"}, false, "never run")) ∧
    (∀ e, completion = some e → result ≠ "success" →
      run_sdtimer_check check result completion now
        = ({check with last_fail := some now, fail_msg := some ("result=" ++ result)}, false, "result=" ++ result)) ∧
    (∀ e, completion = some e → result = "success" → now - e > check.every →
      run_sdtimer_check check result completion now
        = ({check with last_fail := some now, fail_msg := some ("last run " ++ format_duration (now - e) ++ " ago")}, false, "last run " ++ format_duration (now - e) ++ " ago")) ∧
    (∀ e, completion = some e → result = "success" → ¬(now - e > check.every) →
      run_sdtimer_check check result completion now
        = ({check with last_ok := some now, last_fail := none, fail_msg := none, service_ran := some e}, true, "ok (ran " ++ format_ago (some e) now ++ ")")) := by
  refine ⟨?_, ?_, ?_, ?_⟩
  · intro hc
    subst hc
    rfl
  · intro e hc hr
    subst hc
    simp only [run_sdtimer_check]
    rw [if_pos hr]
  · intro e hc hr hage
    subst hr
    subst hc
    simp only [run_sdtimer_check]
    rw [if_neg (by simp), if_pos hage]
  · intro e hc hr hage
    subst hr
    subst hc
    simp only [run_sdtimer_check]
    rw [if_neg (by simp), if_neg hage]

/-- Witness for C6: no completion timestamp yields exactly `"never run"`. -/
theorem c6_witness :
    run_sdtimer_check { every := 60 } "success" none 10
      = ({ every := 60, last_fail := some 10, fail_msg := some "never run" }, false, "never run") :=
  (c6_sdtimer_cases { every := 60 } "success" none 10).1 rfl

/-! ### Claim C7 -/

/-- C7: for every direct-command check, `run_check` yields success with
message `"ok"` exactly when the exit code is 0; on a nonzero exit code it
yields failure with message = trimmed stderr, else trimmed stdout, else
`"exit <code>"`, truncated to 200 characters plus `"..."` when longer;
command-not-found yields `"command not found: <argv[0]>"`; and a timeout
yields `"timeout (300s)"`. -/
theorem c7_direct_command_cases (check : Check) (res : ExecResult) (now : Int)
    (hsd : truthyStr check.sdtimer = false) :
    ((run_check check res "" none now).2.1 = true ↔ ∃ out err, res = .completed 0 out err) ∧
    (∀ out err, res = .completed 0 out err → (run_check check res "" none now).2.2 = "ok") ∧
    (∀ rc out err, res = .completed rc out err → rc ≠ 0 →
      (run_check check res "" none now).2.1 = false ∧
      (run_check check res "" none now).2.2 =
        (let m := if pyStrip err ≠ "" then pyStrip err
          else if pyStrip out ≠ "" then pyStrip out else "exit " ++ intRepr rc
        if m.length > 200 then String.mk (m.data.take 200) ++ "..." else m)) ∧
    (res = .fileNotFound → (run_check check res "" none now).2.1 = false ∧
      (run_check check res "" none now).2.2 = "command not found: " ++ check.command.headD "") ∧
    (res = .timedOut → (run_check check res "" none now).2.1 = false ∧
      (run_check check res "" none now).2.2 = "timeout (300s)") := by
  refine ⟨?_, ?_, ?_, ?_, ?_⟩
  · constructor
    · intro hok
      rcases res with ⟨rc, out, err⟩ | _ | _ | _ <;>
        simp only [run_check, hsd, Bool.false_eq_true, if_false] at hok ⊢
      · by_cases hrc : rc = 0
        · exact ⟨out, err, by rw [hrc]⟩
        · rw [if_neg hrc] at hok
          simp at hok
    · rintro ⟨out, err, hres⟩
      subst hres
      simp [run_check, hsd]
  · intro out err hres
    subst hres
    simp [run_check, hsd]
  · intro rc out err hres hrc
    subst hres
    simp only [run_check, hsd, Bool.false_eq_true, if_false, if_neg hrc]
    constructor <;> trivial
  · intro hres
    subst hres
    simp only [run_check, hsd, Bool.false_eq_true, if_false]
    constructor <;> trivial
  · intro hres
    subst hres
    simp only [run_check, hsd, Bool.false_eq_true, if_false]
    constructor <;> trivial

/-- Witness for C7: the spec's "flaky" example — exit code 1 with
`"disk full"` on stderr — fails with exactly that message. -/
theorem c7_witness :
    (run_check { every := 60, command := ["flaky"] } (.completed 1 "" "disk full") "" none 7).2.2
      = "disk full" := by
  have h := ((c7_direct_command_cases { every := 60, command := ["flaky"] }
    (.completed 1 "" "disk full") 7 rfl).2.2.1 1 "" "disk full" rfl (by decide)).2
  rw [h]
  rfl

/-! ### Claim C3 -/

/-- C3: for every check, every executor outcome and every `now`,
`run_check` sets `last_run = now` unconditionally; a successful outcome
sets `last_ok = now` and clears `last_fail` and `fail_msg` in the same
update, recording the reported completion time into `service_ran`
(`externalRanAt`) exactly on the external-timer path; a failing outcome
sets `last_fail = now` and `fail_msg` to the reported message, leaving
`last_ok` unchanged. -/
theorem c3_apply_outcome (check : Check) (res : ExecResult) (sdresult : String)
    (sdcompletion : Option Int) (now : Int) :
    ((run_check check res sdresult sdcompletion now).1.last_run = some now) ∧
    ((run_check check res sdresult sdcompletion now).2.1 = true →
      (run_check check res sdresult sdcompletion now).1.last_ok = some now ∧
      (run_check check res sdresult sdcompletion now).1.last_fail = none ∧
      (run_check check res sdresult sdcompletion now).1.fail_msg = none) ∧
    ((run_check check res sdresult sdcompletion now).2.1 = false →
      (run_check check res sdresult sdcompletion now).1.last_fail = some now ∧
      (run_check check res sdresult sdcompletion now).1.fail_msg
        = some (run_check check res sdresult sdcompletion now).2.2 ∧
      (run_check check res sdresult sdcompletion now).1.last_ok = check.last_ok) ∧
    ((run_check check res sdresult sdcompletion now).2.1 = true →
      truthyStr check.sdtimer = true →
      (run_check check res sdresult sdcompletion now).1.service_ran = sdcompletion) ∧
    ((run_check check res sdresult sdcompletion now).2.1 = true →
      truthyStr check.sdtimer = false →
      (run_check check res sdresult sdcompletion now).1.service_ran = check.service_ran) := by
  by_cases hsd : truthyStr check.sdtimer <;>
    rcases res with ⟨rc, out, err⟩ | _ | _ | _ <;>
    rcases sdcompletion with _ | epoch <;>
    simp only [run_check, run_sdtimer_check, hsd, if_true, Bool.false_eq_true, if_false] <;>
    (try split_ifs) <;>
    simp_all

/-- Witness for C3 at a concrete successful direct run. -/
theorem c3_witness :
    (run_check { every := 60, last_ok := some 1 } (.completed 0 "" "") "" none 9).1.last_ok
      = some 9 ∧
    (run_check { every := 60, last_ok := some 1 } (.completed 0 "" "") "" none 9).1.last_fail
      = none :=
  have h := c3_apply_outcome { every := 60, last_ok := some 1 } (.completed 0 "" "") "" none 9
  ⟨(h.2.1 (by decide)).1, (h.2.1 (by decide)).2.1⟩

/-! ### Claim C8 -/

/-- Due predicate exactly as the claim states it: `force`, or `lastRunAt`
unset, or `now - lastRunAt >= interval`.  A claim-side definition, written
for comparison with the embedded selection loop. -/
def specDueClaim (force : Bool) (now : Int) (c : Check) : Prop :=
  force = true ∨ c.last_run = none ∨ ∃ lr, c.last_run = some lr ∧ now - lr ≥ c.every

/-- Due predicate as the code decides it: additionally, a stored
`lastRunAt` of `0` is falsy and therefore also counts as unset. -/
def dueAmended (force : Bool) (now : Int) (c : Check) : Prop :=
  force = true ∨ c.last_run = none ∨ c.last_run = some 0 ∨
    ∃ lr, c.last_run = some lr ∧ now - lr ≥ c.every

theorem due_bool_iff (force : Bool) (now : Int) (c : Check) :
    (force || !(truthy c.last_run && decide (now - c.last_run.getD 0 < c.every))) = true
      ↔ dueAmended force now c := by
  unfold dueAmended
  cases hlr : c.last_run with
  | none => simp [truthy]
  | some lr =>
    by_cases hf : force = true
    · simp [hf]
    · simp [hf, truthy]

instance : IsTotal (String × Check) (fun a b => a.1 ≤ b.1) :=
  ⟨fun a b => le_total a.1 b.1⟩

instance : IsTrans (String × Check) (fun a b => a.1 ≤ b.1) :=
  ⟨fun _ _ _ h1 h2 => le_trans h1 h2⟩

/-- C8 counterexample: a check whose stored `lastRunAt` is `0` is selected
by the due-selection loop even though `force` is false and
`now - lastRunAt < interval`, so it is not due in the claim's sense:
truthiness treats the zero timestamp as unset. -/
theorem c8_counterexample :
    selectDue [("a", { every := 100, last_run := some 0 })] [] 5 false = ["a"] ∧
    ¬ specDueClaim false 5 { every := 100, last_run := some 0 } := by
  constructor
  · rfl
  · intro h
    simp [specDueClaim] at h

/-- C8 (amended): with no name filter, the due-selection loop returns
exactly the names of due checks — due iff `force` is true, or `lastRunAt`
is unset or zero (falsy), or `now - lastRunAt >= interval` — in
lexicographically sorted order; with `force = true` every stored name is
returned regardless of `lastRunAt`. -/
theorem c8_select_due_amended (checks : List (String × Check)) (now : Int) (force : Bool) :
    (∀ nm, nm ∈ selectDue checks [] now force ↔
      ∃ c, (nm, c) ∈ checks ∧ dueAmended force now c) ∧
    (selectDue checks [] now force).Sorted (· ≤ ·) ∧
    (force = true → ∀ nm c, (nm, c) ∈ checks → nm ∈ selectDue checks [] now force) := by
  have hmem : ∀ nm, nm ∈ selectDue checks [] now force ↔
      ∃ c, (nm, c) ∈ checks ∧ dueAmended force now c := by
    intro nm
    unfold selectDue
    simp only [List.mem_map, List.mem_filter, List.mem_insertionSort, List.isEmpty_nil,
      Bool.true_or, Bool.true_and]
    constructor
    · rintro ⟨⟨n2, c⟩, ⟨hmem, hdue⟩, rfl⟩
      exact ⟨c, hmem, (due_bool_iff force now c).1 hdue⟩
    · rintro ⟨c, hmem, hdue⟩
      exact ⟨(nm, c), ⟨hmem, (due_bool_iff force now c).2 hdue⟩, rfl⟩
  refine ⟨hmem, ?_, ?_⟩
  · have hs : (List.insertionSort (fun a b : String × Check => a.1 ≤ b.1) checks).Sorted
        (fun a b => a.1 ≤ b.1) := List.sorted_insertionSort _ checks
    have hfil := hs.filter
      (fun nc => (([] : List String).isEmpty || ([] : List String).contains nc.1) &&
        (force || !(truthy nc.2.last_run && decide (now - nc.2.last_run.getD 0 < nc.2.every))))
    exact List.Pairwise.map Prod.fst (fun a b h => h) hfil
  · intro hf nm c hmemc
    exact (hmem nm).2 ⟨c, hmemc, Or.inl hf⟩

/-- Witness for C8 (amended): a never-run check is selected and reported. -/
theorem c8_witness :
    "b" ∈ selectDue [("b", { every := 100, last_run := none }), ("a", { every := 5, last_run := some 3 })] [] 10 false :=
  ((c8_select_due_amended [("b", { every := 100, last_run := none }), ("a", { every := 5, last_run := some 3 })] 10 false).1 "b").2
    ⟨{ every := 100, last_run := none }, by simp, Or.inr (Or.inl rfl)⟩

/-! ### Claim C9 -/

theorem lookupKey_setKey_self (l : List (String × Check)) (n : String) (c : Check) :
    lookupKey (setKey l n c) n = some c := by
  induction l with
  | nil => simp [setKey, lookupKey]
  | cons p rest ih =>
    by_cases h : p.1 = n <;> simp [setKey, lookupKey, h, ih]

theorem lookupKey_setKey_other (l : List (String × Check)) (n n' : String) (c : Check)
    (h : n' ≠ n) :
    lookupKey (setKey l n c) n' = lookupKey l n' := by
  induction l with
  | nil => simp [setKey, lookupKey, Ne.symm h]
  | cons p rest ih =>
    by_cases hp : p.1 = n
    · simp [setKey, lookupKey, hp, Ne.symm h]
    · simp [setKey, lookupKey, hp, ih]

/-- C9: `cmd_add` with an existing name silently replaces the stored record
with a fresh one whose run-history fields are all cleared (it never fails
on duplicates, and leaves every other name's entry unchanged), while
`cmd_rm`, `cmd_edit` and `cmd_reset` on a name absent from the registry
fail with the not-found error path and produce no mutated registry. -/
theorem c9_registry_ops (checks : List (String × Check)) (name : String)
    (cmd : List String) (sd : String) (every created : Int) (e : Option Int) :
    (lookupKey (cmd_add checks name every none cmd created) name
      = some (mkCommandCheck cmd every created)) ∧
    (sd ≠ "" → lookupKey (cmd_add checks name every (some sd) [] created) name
      = some (mkSdtimerCheck sd every created)) ∧
    ((mkCommandCheck cmd every created).last_run = none ∧
      (mkCommandCheck cmd every created).last_ok = none ∧
      (mkCommandCheck cmd every created).last_fail = none ∧
      (mkCommandCheck cmd every created).fail_msg = none ∧
      (mkSdtimerCheck sd every created).last_run = none ∧
      (mkSdtimerCheck sd every created).last_ok = none ∧
      (mkSdtimerCheck sd every created).last_fail = none ∧
      (mkSdtimerCheck sd every created).fail_msg = none) ∧
    (∀ n', n' ≠ name →
      lookupKey (cmd_add checks name every none cmd created) n' = lookupKey checks n') ∧
    (lookupKey checks name = none →
      cmd_rm checks name = none ∧ cmd_edit checks name e = none ∧
        cmd_reset checks name = none) := by
  refine ⟨?_, ?_, ?_, ?_, ?_⟩
  · simp only [cmd_add, truthyStr, Bool.false_eq_true, if_false]
    exact lookupKey_setKey_self checks name _
  · intro hsd
    simp only [cmd_add, truthyStr]
    rw [if_pos (by simp [hsd]), Option.getD_some]
    exact lookupKey_setKey_self checks name _
  · exact ⟨rfl, rfl, rfl, rfl, rfl, rfl, rfl, rfl⟩
  · intro n' hn
    simp only [cmd_add, truthyStr, Bool.false_eq_true, if_false]
    exact lookupKey_setKey_other checks name n' _ hn
  · intro habs
    simp [cmd_rm, cmd_edit, cmd_reset, habs]

/-- Witness for C9 at a concrete registry. -/
theorem c9_witness :
    lookupKey (cmd_add [("a", { every := 5, last_ok := some 3 })] "a" 60 none ["x"] 0) "a"
      = some (mkCommandCheck ["x"] 60 0) ∧
    cmd_rm ([] : List (String × Check)) "a" = none :=
  have h := c9_registry_ops [("a", { every := 5, last_ok := some 3 })] "a" ["x"] "sd" 60 0 none
  have h2 := c9_registry_ops ([] : List (String × Check)) "a" ["x"] "sd" 60 0 none
  ⟨h.1, (h2.2.2.2.2 rfl).1⟩
